import Mathlib

/-!
# Verification of the NFP forecasting notebook's core numeric pipeline

Shallow embedding of the algorithmic core of `4-forecasting_nfp_lr/NFP.ipynb`:
the first-difference transform (`np.diff`), the lag-window dataset builder and
chronological train/test splitter (`data_preprocessing`), and the two
evaluation metrics (`rmse_test` via `sklearn.metrics.mean_squared_error`,
and the directional ratio `same_sign_count` via `np.sign`).

Floating-point values are modelled as rationals (`ℚ`), so arithmetic is exact;
`math.sqrt` is modelled as `Real.sqrt` on the rational mean-squared error.
-/

set_option autoImplicit false

namespace NFP

/-- Embedding of `np.diff` on a one-dimensional array (`data = np.diff(data)`):
for each consecutive pair the successor minus the predecessor.  `np.diff`
never raises on a 1-D array; on arrays of length `< 2` it returns the empty
array. -/
def np_diff : List ℚ → List ℚ
  | [] => []
  | [_] => []
  | a :: b :: rest => (b - a) :: np_diff (b :: rest)

/-- Python `int()` applied to a real number truncates toward zero. -/
def py_int (q : ℚ) : ℤ := if q < 0 then ⌈q⌉ else ⌊q⌋

/-- The list `x` built by the loop in `data_preprocessing`:
`for i in range(len(data) - num_lags): x.append(data[i:i + num_lags])`. -/
def pre_x (data : List ℚ) (num_lags : ℕ) : List (List ℚ) :=
  (List.range (data.length - num_lags)).map (fun i => (data.drop i).take num_lags)

/-- The list `y` built by the loop in `data_preprocessing`:
`y.append(data[i + num_lags])`.  Every index read by the loop is in range,
so the `getD` default is never used. -/
def pre_y (data : List ℚ) (num_lags : ℕ) : List ℚ :=
  (List.range (data.length - num_lags)).map (fun i => data.getD (i + num_lags) 0)

/-- `split_index = int(train_test_split * len(x))` in `data_preprocessing`.
For the fractions used by the notebook the product is nonnegative, so
Python's toward-zero truncation coincides with the floor and the result is
a natural number. -/
def split_index (data : List ℚ) (num_lags : ℕ) (train_test_split : ℚ) : ℕ :=
  (py_int (train_test_split * (pre_x data num_lags).length)).toNat

/-- Embedding of `data_preprocessing(data, num_lags, train_test_split)`:
builds the lag-window features `x` and labels `y`, then slices both at
`split_index`, returning `(x_train, y_train, x_test, y_test)`. -/
def data_preprocessing (data : List ℚ) (num_lags : ℕ) (train_test_split : ℚ) :
    List (List ℚ) × List ℚ × List (List ℚ) × List ℚ :=
  let x := pre_x data num_lags
  let y := pre_y data num_lags
  let si := split_index data num_lags train_test_split
  (x.take si, y.take si, x.drop si, y.drop si)

/-- The mean squared error value computed by
`sklearn.metrics.mean_squared_error(y_pred, y_test)` on valid inputs:
the average of the squared componentwise differences. -/
def mseVal (preds labels : List ℚ) : ℚ :=
  (List.zipWith (fun a b => (a - b) ^ 2) preds labels).sum / labels.length

/-- Embedding of `sklearn.metrics.mean_squared_error`, including its input
validation: it raises `ValueError` when the two arrays have inconsistent
lengths or contain zero samples. -/
def mean_squared_error (preds labels : List ℚ) : Except String ℚ :=
  if preds.length ≠ labels.length then
    Except.error "Found input variables with inconsistent numbers of samples"
  else if labels.length = 0 then
    Except.error "Found array with 0 samples, but a minimum of 1 is required"
  else
    Except.ok (mseVal preds labels)

/-- Embedding of `np.sign` on a scalar: `-1` for negatives, `0` for zero,
`1` for positives. -/
def np_sign (x : ℚ) : ℤ := if x < 0 then -1 else if x = 0 then 0 else 1

/-- Embedding of the directional-ratio cell:
`same_sign_count = np.sum(np.sign(y_pred) == np.sign(y_test)) / len(y_test) * 100`.
`np.sum` over the boolean comparison array counts the agreeing positions. -/
def same_sign_count (preds labels : List ℚ) : ℚ :=
  (((List.zipWith (fun a b => if np_sign a = np_sign b then (1 : ℕ) else 0)
      preds labels).sum : ℕ) : ℚ) / labels.length * 100

/-! ## Basic lemmas about the embedded functions -/

theorem np_diff_length : ∀ l : List ℚ, (np_diff l).length = l.length - 1
  | [] => rfl
  | [_] => rfl
  | _ :: b :: rest => by
    show (np_diff (b :: rest)).length + 1 = (b :: rest).length
    rw [np_diff_length (b :: rest)]
    simp

theorem np_diff_getD : ∀ (l : List ℚ) (i : ℕ), i + 1 < l.length →
    (np_diff l).getD i 0 = l.getD (i + 1) 0 - l.getD i 0
  | [], i, h => by simp at h
  | [_], i, h => by simp at h
  | _ :: b :: rest, 0, _ => rfl
  | _ :: b :: rest, i + 1, h => by
    have ih := np_diff_getD (b :: rest) i (by simpa using h)
    simpa [np_diff] using ih

theorem getD_map_range {α : Type} (f : ℕ → α) (n i : ℕ) (h : i < n) (d : α) :
    ((List.range n).map f).getD i d = f i := by
  have h' : ((List.range n).map f).get? i = some (f i) := by
    rw [List.get?_map, List.get?_range h]
    rfl
  show (((List.range n).map f).get? i).getD d = f i
  rw [h']
  rfl

theorem pre_x_length (data : List ℚ) (L : ℕ) : (pre_x data L).length = data.length - L := by
  simp [pre_x]

theorem pre_y_length (data : List ℚ) (L : ℕ) : (pre_y data L).length = data.length - L := by
  simp [pre_y]

theorem pre_x_getD (data : List ℚ) (L i : ℕ) (h : i < data.length - L) :
    (pre_x data L).getD i [] = (data.drop i).take L :=
  getD_map_range _ _ i h []

theorem pre_y_getD (data : List ℚ) (L i : ℕ) (h : i < data.length - L) :
    (pre_y data L).getD i 0 = data.getD (i + L) 0 :=
  getD_map_range _ _ i h 0

theorem window_length (data : List ℚ) (i L : ℕ) (h : i + L ≤ data.length) :
    ((data.drop i).take L).length = L := by
  simp only [List.length_take, List.length_drop]
  omega

theorem window_getD (data : List ℚ) (i L j : ℕ) (hj : j < L) :
    ((data.drop i).take L).getD j 0 = data.getD (i + j) 0 := by
  show (((data.drop i).take L).get? j).getD 0 = (data.get? (i + j)).getD 0
  rw [List.get?_take_eq_if, if_pos hj, List.get?_drop]

theorem py_int_nonneg_eq_floor (q : ℚ) (h : 0 ≤ q) : py_int q = ⌊q⌋ := by
  rw [py_int, if_neg (not_lt.mpr h)]

theorem floor_frac_le (f : ℚ) (M : ℕ) (hf1 : f < 1) :
    (⌊f * (M : ℚ)⌋).toNat ≤ M := by
  have h1 : f * (M : ℚ) ≤ (M : ℚ) := by
    calc f * (M : ℚ) ≤ 1 * (M : ℚ) :=
          mul_le_mul_of_nonneg_right hf1.le (Nat.cast_nonneg M)
    _ = (M : ℚ) := one_mul _
  have h2 : ⌊f * (M : ℚ)⌋ ≤ (M : ℤ) := by
    calc ⌊f * (M : ℚ)⌋ ≤ ⌊(M : ℚ)⌋ := Int.floor_le_floor h1
    _ = (M : ℤ) := Int.floor_natCast M
  calc (⌊f * (M : ℚ)⌋).toNat ≤ ((M : ℤ)).toNat := Int.toNat_le_toNat h2
  _ = M := Int.toNat_natCast M

theorem getD_take_lt {α : Type} (l : List α) (c i : ℕ) (h : i < c) (d : α) :
    (l.take c).getD i d = l.getD i d := by
  show ((l.take c).get? i).getD d = (l.get? i).getD d
  rw [List.get?_take_eq_if, if_pos h]

theorem getD_drop_add {α : Type} (l : List α) (c i : ℕ) (d : α) :
    (l.drop c).getD i d = l.getD (c + i) d := by
  show ((l.drop c).get? i).getD d = (l.get? (c + i)).getD d
  rw [List.get?_drop]

theorem split_index_eq_floor (data : List ℚ) (L : ℕ) (f : ℚ) (hf0 : 0 ≤ f) :
    split_index data L f = (⌊f * ((data.length - L : ℕ) : ℚ)⌋).toNat := by
  rw [split_index, pre_x_length,
    py_int_nonneg_eq_floor _ (mul_nonneg hf0 (Nat.cast_nonneg _))]

/-! ## Claim theorems -/

/-- Claim C5: for every RawSeries of length N ≥ 2, the differencer returns a
DiffSeries of length exactly N−1 with DiffSeries[i] = RawSeries[i+1] − RawSeries[i]
for every valid index i. -/
theorem np_diff_spec (data : List ℚ) (h : 2 ≤ data.length) :
    (np_diff data).length = data.length - 1 ∧
    ∀ i, i < data.length - 1 →
      (np_diff data).getD i 0 = data.getD (i + 1) 0 - data.getD i 0 :=
  ⟨np_diff_length data, fun i hi => np_diff_getD data i (by omega)⟩

/-- Witness for C5 at the concrete RawSeries of the notebook scenario. -/
theorem np_diff_spec_check :
    2 ≤ ([100, 102, 101, 105, 108, 107] : List ℚ).length ∧
    ((np_diff [100, 102, 101, 105, 108, 107]).length =
        ([100, 102, 101, 105, 108, 107] : List ℚ).length - 1 ∧
      ∀ i, i < ([100, 102, 101, 105, 108, 107] : List ℚ).length - 1 →
        (np_diff [100, 102, 101, 105, 108, 107]).getD i 0 =
          ([100, 102, 101, 105, 108, 107] : List ℚ).getD (i + 1) 0 -
            ([100, 102, 101, 105, 108, 107] : List ℚ).getD i 0) :=
  ⟨by decide, np_diff_spec [100, 102, 101, 105, 108, 107] (by decide)⟩

/-- Claim C6 counterexample: on a RawSeries of length 1 (and on the empty one),
`np.diff` returns the empty array rather than failing with an error — there is
no error path at all for 1-D input. -/
theorem np_diff_singleton_value :
    np_diff [(100 : ℚ)] = [] ∧ np_diff ([] : List ℚ) = [] :=
  ⟨rfl, rfl⟩

/-- Claim C6 amended: for every RawSeries of length N < 2 the differencer
returns the empty DiffSeries (it does not raise). -/
theorem np_diff_short_spec : ∀ l : List ℚ, l.length < 2 → np_diff l = []
  | [], _ => rfl
  | [_], _ => rfl
  | _ :: _ :: _, h => absurd h (by simp)

/-- Witness for the amended C6 at a singleton RawSeries. -/
theorem np_diff_short_check :
    ([(100 : ℚ)] : List ℚ).length < 2 ∧ np_diff [(100 : ℚ)] = [] :=
  ⟨by decide, np_diff_short_spec [(100 : ℚ)] (by decide)⟩

/-- Claim C1: for every difference sequence of length D and lag count L with
1 ≤ L < D, the windowing loop of `data_preprocessing` produces exactly D − L
(feature, label) pairs; pair i's feature vector is the slice
DiffSeries[i : i+L] (length L, j-th entry DiffSeries[i+j]) and pair i's label
is DiffSeries[i+L]. -/
theorem windowing_spec (data : List ℚ) (L : ℕ) (_hL : 1 ≤ L) (hLD : L < data.length) :
    (pre_x data L).length = data.length - L ∧
    (pre_y data L).length = data.length - L ∧
    ∀ i, i < data.length - L →
      ((pre_x data L).getD i []).length = L ∧
      (∀ j, j < L → ((pre_x data L).getD i []).getD j 0 = data.getD (i + j) 0) ∧
      (pre_y data L).getD i 0 = data.getD (i + L) 0 := by
  refine ⟨pre_x_length data L, pre_y_length data L, fun i hi => ?_⟩
  rw [pre_x_getD data L i hi]
  exact ⟨window_length data i L (by omega),
    fun j hj => window_getD data i L j hj,
    pre_y_getD data L i hi⟩

/-- Witness for C1 at the notebook scenario DiffSeries with L = 2. -/
theorem windowing_spec_check :
    1 ≤ 2 ∧ 2 < ([2, -1, 4, 3, -1] : List ℚ).length ∧
    (pre_x [2, -1, 4, 3, -1] 2).length = ([2, -1, 4, 3, -1] : List ℚ).length - 2 :=
  ⟨by decide, by decide,
    (windowing_spec [2, -1, 4, 3, -1] 2 (by decide) (by decide)).1⟩

/-- Claim C2: for every windowed dataset and split fraction f ∈ (0,1), the
split cuts at ⌊f·M⌋; train is exactly the pairs with indices [0, cut), test
exactly those with indices [cut, M); together they partition the dataset with
no overlap and no gap, every train index precedes every test index, and the
chronological order is preserved (train and test are contiguous slices). -/
theorem split_partition_spec (data : List ℚ) (L : ℕ) (f : ℚ) (hf0 : 0 < f) (hf1 : f < 1) :
    (split_index data L f : ℤ) = ⌊f * ((data.length - L : ℕ) : ℚ)⌋ ∧
    split_index data L f ≤ data.length - L ∧
    (data_preprocessing data L f).1 ++ (data_preprocessing data L f).2.2.1 = pre_x data L ∧
    (data_preprocessing data L f).2.1 ++ (data_preprocessing data L f).2.2.2 = pre_y data L ∧
    (data_preprocessing data L f).1.length = split_index data L f ∧
    (data_preprocessing data L f).2.1.length = split_index data L f ∧
    (data_preprocessing data L f).2.2.1.length = (data.length - L) - split_index data L f ∧
    (data_preprocessing data L f).2.2.2.length = (data.length - L) - split_index data L f ∧
    (∀ i, i < split_index data L f →
      (data_preprocessing data L f).1.getD i [] = (pre_x data L).getD i [] ∧
      (data_preprocessing data L f).2.1.getD i 0 = (pre_y data L).getD i 0) ∧
    (∀ i, split_index data L f ≤ i →
      (data_preprocessing data L f).2.2.1.getD (i - split_index data L f) [] =
        (pre_x data L).getD i [] ∧
      (data_preprocessing data L f).2.2.2.getD (i - split_index data L f) 0 =
        (pre_y data L).getD i 0) := by
  have hfl := split_index_eq_floor data L f hf0.le
  have hle : split_index data L f ≤ data.length - L := by
    rw [hfl]; exact floor_frac_le f _ hf1
  have hfl' : (split_index data L f : ℤ) = ⌊f * ((data.length - L : ℕ) : ℚ)⌋ := by
    rw [hfl]
    exact Int.toNat_of_nonneg (Int.floor_nonneg.mpr
      (mul_nonneg hf0.le (Nat.cast_nonneg _)))
  refine ⟨hfl', hle, ?_, ?_, ?_, ?_, ?_, ?_, ?_, ?_⟩
  · simp [data_preprocessing, List.take_append_drop]
  · simp [data_preprocessing, List.take_append_drop]
  · simp only [data_preprocessing]
    rw [List.length_take, pre_x_length]
    omega
  · simp only [data_preprocessing]
    rw [List.length_take, pre_y_length]
    omega
  · simp only [data_preprocessing]
    rw [List.length_drop, pre_x_length]
  · simp only [data_preprocessing]
    rw [List.length_drop, pre_y_length]
  · intro i hi
    constructor
    · simp only [data_preprocessing]
      exact getD_take_lt _ _ _ hi []
    · simp only [data_preprocessing]
      exact getD_take_lt _ _ _ hi 0
  · intro i hi
    constructor
    · simp only [data_preprocessing]
      rw [getD_drop_add, Nat.add_sub_cancel' hi]
    · simp only [data_preprocessing]
      rw [getD_drop_add, Nat.add_sub_cancel' hi]

/-- Witness for C2 at the scenario input: f = 67/100 lies in (0,1) and the
train and test blocks reassemble the windowed feature list. -/
theorem split_partition_check :
    0 < (67 / 100 : ℚ) ∧ (67 / 100 : ℚ) < 1 ∧
    (data_preprocessing [2, -1, 4, 3, -1] 2 (67 / 100)).1 ++
      (data_preprocessing [2, -1, 4, 3, -1] 2 (67 / 100)).2.2.1 =
      pre_x [2, -1, 4, 3, -1] 2 :=
  ⟨by norm_num, by norm_num,
    (split_partition_spec [2, -1, 4, 3, -1] 2 (67 / 100)
      (by norm_num) (by norm_num)).2.2.1⟩

/-- Claim C3 counterexample: with DiffSeries = [1, 2] (length 2) and
L = 3 ≥ 2, `data_preprocessing` returns four empty lists instead of failing
with InvalidInput — the function performs no input validation at all. -/
theorem no_validation_counterexample :
    data_preprocessing [1, 2] 3 (4 / 5) = ([], [], [], []) := by
  norm_num [data_preprocessing, pre_x, pre_y, split_index, py_int]

/-- Claim C3 amended: `data_preprocessing` never raises; when
L ≥ length(DiffSeries) it returns four empty lists, when the cut is 0 it
returns an empty training block, and when the cut reaches M it returns an
empty test block — in every case a (possibly empty) dataset is returned. -/
theorem no_validation_amended (data : List ℚ) (L : ℕ) (f : ℚ) :
    (data.length ≤ L → data_preprocessing data L f = ([], [], [], [])) ∧
    (split_index data L f = 0 →
      (data_preprocessing data L f).1 = [] ∧ (data_preprocessing data L f).2.1 = []) ∧
    (data.length - L ≤ split_index data L f →
      (data_preprocessing data L f).2.2.1 = [] ∧
      (data_preprocessing data L f).2.2.2 = []) := by
  refine ⟨fun h => ?_, fun h => ?_, fun h => ?_⟩
  · have hx : pre_x data L = [] := by simp [pre_x, Nat.sub_eq_zero_of_le h]
    have hy : pre_y data L = [] := by simp [pre_y, Nat.sub_eq_zero_of_le h]
    simp [data_preprocessing, hx, hy]
  · simp [data_preprocessing, h]
  · constructor
    · exact List.drop_eq_nil_of_le (by rw [pre_x_length]; exact h)
    · exact List.drop_eq_nil_of_le (by rw [pre_y_length]; exact h)

/-- Witness for the amended C3: a too-large lag yields four empty lists, and a
zero cut yields an empty training block. -/
theorem no_validation_check :
    ([1, 2] : List ℚ).length ≤ 3 ∧
    data_preprocessing [1, 2] 3 (4 / 5) = ([], [], [], []) ∧
    split_index [1, 2, 3] 2 (1 / 2) = 0 ∧
    (data_preprocessing [1, 2, 3] 2 (1 / 2)).1 = [] :=
  ⟨by decide,
    (no_validation_amended [1, 2] 3 (4 / 5)).1 (by decide),
    by norm_num [split_index, py_int, pre_x],
    ((no_validation_amended [1, 2, 3] 2 (1 / 2)).2.1
      (by norm_num [split_index, py_int, pre_x])).1⟩

/-- Claim C9: on RawSeries = [100, 102, 101, 105, 108, 107] the differencer
yields [2, -1, 4, 3, -1]; windowing with L = 2 yields exactly the three pairs
([2,-1] → 4), ([-1,4] → 3), ([4,3] → -1); and splitting with f = 0.67 cuts at
⌊0.67·3⌋ = 2, giving a train block of 2 pairs and a test block of 1 pair. -/
theorem scenario_nfp :
    np_diff [100, 102, 101, 105, 108, 107] = [2, -1, 4, 3, -1] ∧
    pre_x [2, -1, 4, 3, -1] 2 = [[2, -1], [-1, 4], [4, 3]] ∧
    pre_y [2, -1, 4, 3, -1] 2 = [4, 3, -1] ∧
    split_index [2, -1, 4, 3, -1] 2 (67 / 100) = 2 ∧
    data_preprocessing [2, -1, 4, 3, -1] 2 (67 / 100) =
      ([[2, -1], [-1, 4]], [4, 3], [[4, 3]], [-1]) := by
  have h1 : np_diff [100, 102, 101, 105, 108, 107] = [2, -1, 4, 3, -1] := by
    norm_num [np_diff]
  have h2 : pre_x [2, -1, 4, 3, -1] 2 = [[2, -1], [-1, 4], [4, 3]] := by
    norm_num [pre_x, List.range_succ]
  have h3 : pre_y [2, -1, 4, 3, -1] 2 = [4, 3, -1] := by
    norm_num [pre_y, List.range_succ]
  have h4 : split_index [2, -1, 4, 3, -1] 2 (67 / 100) = 2 := by
    norm_num [split_index, py_int, pre_x]
    all_goals decide
  refine ⟨h1, h2, h3, h4, ?_⟩
  simp only [data_preprocessing, h2, h3, h4]
  norm_num [List.take_succ]

/-! ## Lemmas for the evaluation metrics -/

theorem sum_zipWith_eq_range {β : Type} [AddCommMonoid β] (g : ℚ → ℚ → β) :
    ∀ (p l : List ℚ), p.length = l.length →
      (List.zipWith g p l).sum = ∑ i ∈ Finset.range l.length, g (p.getD i 0) (l.getD i 0)
  | [], [], _ => by simp
  | [], _ :: _, h => by simp at h
  | _ :: _, [], h => by simp at h
  | a :: p, b :: l, h => by
    have ih := sum_zipWith_eq_range g p l (by simpa using h)
    show g a b + (List.zipWith g p l).sum = _
    rw [ih, List.length_cons, Finset.sum_range_succ']
    simp [add_comm]

theorem zipWith_sq_sum_nonneg : ∀ p l : List ℚ,
    0 ≤ (List.zipWith (fun a b => (a - b) ^ 2) p l).sum
  | [], _ => by simp
  | _ :: _, [] => by simp
  | a :: p, b :: l => by
    show 0 ≤ (a - b) ^ 2 + (List.zipWith (fun a b => (a - b) ^ 2) p l).sum
    exact add_nonneg (sq_nonneg _) (zipWith_sq_sum_nonneg p l)

theorem zipWith_sq_sum_eq_zero_iff : ∀ (p l : List ℚ), p.length = l.length →
    ((List.zipWith (fun a b => (a - b) ^ 2) p l).sum = 0 ↔ p = l)
  | [], [], _ => by simp
  | [], _ :: _, h => by simp at h
  | _ :: _, [], h => by simp at h
  | a :: p, b :: l, h => by
    have ih := zipWith_sq_sum_eq_zero_iff p l (by simpa using h)
    show (a - b) ^ 2 + (List.zipWith (fun a b => (a - b) ^ 2) p l).sum = 0 ↔ _
    rw [add_eq_zero_iff_of_nonneg (sq_nonneg _) (zipWith_sq_sum_nonneg p l)]
    rw [pow_eq_zero_iff (by norm_num), sub_eq_zero, ih]
    simp

theorem mseVal_nonneg (preds labels : List ℚ) : 0 ≤ mseVal preds labels :=
  div_nonneg (zipWith_sq_sum_nonneg preds labels) (Nat.cast_nonneg _)

theorem ind_sum_le (g : ℚ → ℚ → ℕ) (hg : ∀ a b, g a b ≤ 1) :
    ∀ p l : List ℚ, (List.zipWith g p l).sum ≤ l.length
  | [], l => by simp
  | _ :: _, [] => by simp
  | a :: p, b :: l => by
    show g a b + (List.zipWith g p l).sum ≤ l.length + 1
    have h1 := ind_sum_le g hg p l
    have h2 := hg a b
    omega

/-- Claim C4: on an empty evaluation set (M_test = 0) the evaluator fails:
`mean_squared_error` raises, so `rmse_test = math.sqrt(...)` is never reached
and no numeric RMSE (NaN or otherwise) is produced. -/
theorem mse_empty_fails (preds labels : List ℚ) (h : labels.length = 0) :
    (∃ msg, mean_squared_error preds labels = Except.error msg) ∧
    ∀ q : ℚ, mean_squared_error preds labels ≠ Except.ok q := by
  rw [mean_squared_error]
  by_cases hp : preds.length = labels.length
  · rw [if_neg (by simp [hp]), if_pos h]
    exact ⟨⟨_, rfl⟩, fun q hq => Except.noConfusion hq⟩
  · rw [if_pos hp]
    exact ⟨⟨_, rfl⟩, fun q hq => Except.noConfusion hq⟩

/-- Witness for C4 at the empty prediction and label lists. -/
theorem mse_empty_check :
    ([] : List ℚ).length = 0 ∧
    ∀ q : ℚ, mean_squared_error [] ([] : List ℚ) ≠ Except.ok q :=
  ⟨rfl, (mse_empty_fails [] [] rfl).2⟩

/-- Claim C7: for non-empty equal-length Predictions and Labels the evaluator
succeeds and RMSE = sqrt((1/M_test)·Σ (Predictions[i] − Labels[i])²); the RMSE
is nonnegative and vanishes exactly when Predictions equals Labels
element-wise. -/
theorem rmse_spec (preds labels : List ℚ)
    (hlen : preds.length = labels.length) (hM : 0 < labels.length) :
    mean_squared_error preds labels = Except.ok (mseVal preds labels) ∧
    mseVal preds labels = (1 / (labels.length : ℚ)) *
      ∑ i ∈ Finset.range labels.length, (preds.getD i 0 - labels.getD i 0) ^ 2 ∧
    0 ≤ Real.sqrt (mseVal preds labels) ∧
    (Real.sqrt (mseVal preds labels) = 0 ↔ preds = labels) := by
  have hM' : (labels.length : ℚ) ≠ 0 := by positivity
  refine ⟨?_, ?_, Real.sqrt_nonneg _, ?_⟩
  · rw [mean_squared_error, if_neg (by simp [hlen]), if_neg (by omega)]
  · rw [mseVal, sum_zipWith_eq_range _ preds labels hlen, one_div_mul_eq_div]
  · rw [Real.sqrt_eq_zero']
    constructor
    · intro h
      have h0 : (mseVal preds labels : ℝ) = 0 := by
        have := Rat.cast_nonneg (K := ℝ).mpr (mseVal_nonneg preds labels)
        linarith
      have h1 : mseVal preds labels = 0 := by exact_mod_cast h0
      rw [mseVal, div_eq_zero_iff] at h1
      rcases h1 with h1 | h1
      · exact (zipWith_sq_sum_eq_zero_iff preds labels hlen).mp h1
      · exact absurd h1 hM'
    · intro h
      have h1 : (List.zipWith (fun a b => (a - b) ^ 2) preds labels).sum = 0 :=
        (zipWith_sq_sum_eq_zero_iff preds labels hlen).mpr h
      rw [mseVal, h1]
      simp

/-- Witness for C7 at the spec's evaluation scenario
Predictions = [1, -2, 3], Labels = [1, -2, -3]. -/
theorem rmse_check :
    ([1, -2, 3] : List ℚ).length = ([1, -2, -3] : List ℚ).length ∧
    0 < ([1, -2, -3] : List ℚ).length ∧
    mean_squared_error [1, -2, 3] [1, -2, -3] =
      Except.ok (mseVal [1, -2, 3] [1, -2, -3]) :=
  ⟨rfl, by decide, (rmse_spec [1, -2, 3] [1, -2, -3] rfl (by decide)).1⟩

/-- Claim C8: for non-empty equal-length Predictions and Labels the
directional ratio equals 100 × (count of indices with agreeing `np.sign`) /
M_test, and it always lies in [0, 100]. -/
theorem directional_ratio_spec (preds labels : List ℚ)
    (hlen : preds.length = labels.length) (hM : 0 < labels.length) :
    same_sign_count preds labels =
      100 * ((∑ i ∈ Finset.range labels.length,
        if np_sign (preds.getD i 0) = np_sign (labels.getD i 0) then (1 : ℕ) else 0 : ℕ) : ℚ)
        / labels.length ∧
    0 ≤ same_sign_count preds labels ∧
    same_sign_count preds labels ≤ 100 := by
  have hsum := sum_zipWith_eq_range
    (fun a b => if np_sign a = np_sign b then (1 : ℕ) else 0) preds labels hlen
  have hcle : (List.zipWith (fun a b => if np_sign a = np_sign b then (1 : ℕ) else 0)
      preds labels).sum ≤ labels.length :=
    ind_sum_le _ (fun a b => by split <;> simp) preds labels
  have hMpos : (0 : ℚ) < labels.length := by exact_mod_cast hM
  refine ⟨?_, ?_, ?_⟩
  · rw [same_sign_count, hsum]
    ring
  · rw [same_sign_count]
    positivity
  · rw [same_sign_count]
    have h1 : ((List.zipWith (fun a b => if np_sign a = np_sign b then (1 : ℕ) else 0)
        preds labels).sum : ℚ) / labels.length ≤ 1 :=
      (div_le_one hMpos).mpr (by exact_mod_cast hcle)
    calc ((List.zipWith (fun a b => if np_sign a = np_sign b then (1 : ℕ) else 0)
        preds labels).sum : ℚ) / labels.length * 100 ≤ 1 * 100 :=
          mul_le_mul_of_nonneg_right h1 (by norm_num)
    _ = 100 := one_mul _

/-- Witness for C8 at the spec's evaluation scenario. -/
theorem directional_ratio_check :
    ([1, -2, 3] : List ℚ).length = ([1, -2, -3] : List ℚ).length ∧
    0 < ([1, -2, -3] : List ℚ).length ∧
    0 ≤ same_sign_count [1, -2, 3] [1, -2, -3] ∧
    same_sign_count [1, -2, 3] [1, -2, -3] ≤ 100 :=
  ⟨rfl, by decide, (directional_ratio_spec [1, -2, 3] [1, -2, -3] rfl (by decide)).2⟩

/-- Claim C10: in the directional-ratio computation `np.sign` maps negatives
to −1, zero to 0 and positives to 1, and agreement is equality of these
signs; hence a prediction of exactly 0 agrees with a label exactly when the
label is also 0. -/
theorem np_sign_zero_spec :
    (∀ x : ℚ, x < 0 → np_sign x = -1) ∧
    np_sign (0 : ℚ) = 0 ∧
    (∀ x : ℚ, 0 < x → np_sign x = 1) ∧
    (∀ x y : ℚ, x = 0 → (np_sign x = np_sign y ↔ y = 0)) := by
  have hneg : ∀ x : ℚ, x < 0 → np_sign x = -1 := fun x hx => by
    rw [np_sign, if_pos hx]
  have hzero : np_sign (0 : ℚ) = 0 := by
    rw [np_sign, if_neg (lt_irrefl 0), if_pos rfl]
  have hpos : ∀ x : ℚ, 0 < x → np_sign x = 1 := fun x hx => by
    rw [np_sign, if_neg (by linarith), if_neg (by linarith)]
  refine ⟨hneg, hzero, hpos, fun x y hx => ?_⟩
  subst hx
  rw [hzero]
  constructor
  · intro h
    by_contra hy
    rcases lt_or_gt_of_ne hy with h1 | h1
    · rw [hneg y h1] at h
      norm_num at h
    · rw [hpos y h1] at h
      norm_num at h
  · intro h
    subst h
    rw [hzero]

/-- Witness for C10 at concrete values: −5, 3, and the zero/nonzero pair. -/
theorem np_sign_zero_check :
    np_sign (-5 : ℚ) = -1 ∧ np_sign (3 : ℚ) = 1 ∧
    (np_sign (0 : ℚ) = np_sign (7 : ℚ) ↔ (7 : ℚ) = 0) :=
  ⟨np_sign_zero_spec.1 (-5) (by norm_num),
    np_sign_zero_spec.2.2.1 3 (by norm_num),
    np_sign_zero_spec.2.2.2 0 7 rfl⟩

end NFP
